import Mathlib

/-!
Verification development for the sorter-clubbing-optimizer analytics
pipeline (`algorithms.py`, `processing.py`, `bags.py`).

The Python sources are shallowly embedded as Lean definitions:

* machine floating-point scalars are modelled exactly as `OQ := Option ℚ`,
  where `none` stands for IEEE NaN and `some q` for the finite value `q`
  (every value reachable in the modelled code paths is finite or NaN —
  the only division in `find_elbow` is by the squared chord length, which
  is zero exactly when its numerator is zero, so infinities never arise);
* pandas `DataFrame`s are modelled as lists of record structures;
* numpy's NaN-propagating array sum is `npSum`; pandas' NaN-skipping
  series sum is `pandasSum`.
-/

/-- A float scalar: `none` is NaN, `some q` is the finite rational `q`. -/
abbrev OQ := Option ℚ

/-- IEEE addition on the modelled scalars: NaN propagates. -/
def oadd : OQ → OQ → OQ
  | some a, some b => some (a + b)
  | _, _ => none

/-- IEEE subtraction on the modelled scalars: NaN propagates. -/
def osub : OQ → OQ → OQ
  | some a, some b => some (a - b)
  | _, _ => none

/-- IEEE multiplication on the modelled scalars: NaN propagates
(note `0 * NaN = NaN` in IEEE arithmetic, matched by this definition). -/
def omul : OQ → OQ → OQ
  | some a, some b => some (a * b)
  | _, _ => none

/-- Division on the modelled scalars.  NaN propagates, and a zero divisor
yields NaN.  In the embedded code the divisor is the squared chord length
of `find_elbow`, which vanishes exactly when the numerator vanishes, so
the only reachable zero-divisor case is IEEE `0/0 = NaN`; the infinite
results of `x/0` for `x ≠ 0` are unreachable and not modelled. -/
def odiv : OQ → OQ → OQ
  | some a, some b => if b = 0 then none else some (a / b)
  | _, _ => none

/-- Index of the first `none` (NaN) entry of a float list, if any. -/
def firstNoneIdx : List OQ → Option ℕ
  | [] => none
  | none :: _ => some 0
  | some _ :: rest => (firstNoneIdx rest).map (· + 1)

/-- Tail of the stable argmax scan: `best` is the index of the running
maximum `bv`, `i` the index of the head of the remaining list; only a
strictly greater value displaces the running maximum, so the first
maximal index wins. -/
def idxMaxAux (best : ℕ) (bv : ℚ) (i : ℕ) : List ℚ → ℕ
  | [] => best
  | v :: rest => if bv < v then idxMaxAux i v (i + 1) rest else idxMaxAux best bv (i + 1) rest

/-- Stable argmax over a rational list (first maximal index); 0 on the
empty list. -/
def idxMax : List ℚ → ℕ
  | [] => 0
  | v :: rest => idxMaxAux 0 v 1 rest

/-- `np.argmax` over a float array: if any entry is NaN, numpy returns
the index of the first NaN (NaN is treated as maximal); otherwise the
first index attaining the maximum (stable argmax). -/
def argmaxO (l : List OQ) : ℕ :=
  match firstNoneIdx l with
  | some i => i
  | none => idxMax (l.map (fun a => a.getD 0))

/-- The scalar projection coefficient of `find_elbow`, in chord units:
the source computes `proj_len = (p-p1)·line_vec` with
`line_vec = u/‖u‖`; dividing once more by `‖u‖` (i.e. using the squared
chord length `s = ‖u‖²` as divisor) gives the coefficient `t` with
`proj_point = p1 + t·u`, which is exactly what the source's
`p1 + proj_len * line_vec` evaluates to. -/
def projT (ux uy s dx dy : OQ) : OQ := odiv (oadd (omul dx ux) (omul dy uy)) s

/-- Squared norm of the residual `p - proj_point` of `find_elbow`
(the source records `np.linalg.norm(p - proj_point)`; see `elbowDists`
for why the squared norm is a faithful replacement). -/
def residSq (ux uy s dx dy : OQ) : OQ :=
  oadd (omul (osub dx (omul (projT ux uy s dx dy) ux)) (osub dx (omul (projT ux uy s dx dy) ux)))
       (omul (osub dy (omul (projT ux uy s dx dy) uy)) (osub dy (omul (projT ux uy s dx dy) uy)))

/-- One coordinate of the chord vector `p2 - p1` of `find_elbow`
(last minus first point). -/
def chordX (x : List OQ) : OQ := osub (x.getLastD none) (x.getD 0 none)

/-- Squared chord length `‖p2 - p1‖²` of `find_elbow`. -/
def chordSq (x y : List OQ) : OQ :=
  oadd (omul (chordX x) (chordX x)) (omul (chordX y) (chordX y))

/-- The perpendicular-distance list computed inside `find_elbow`
(`processing.py` lines 63-70, `bags.py` lines 14-23), recorded as squared
distances.  The source builds the unit chord vector
`line_vec = (p2-p1)/np.linalg.norm(p2-p1)`, projects each point `p` onto
it (`proj_len = (p-p1)·line_vec`), forms
`proj_point = p1 + proj_len*line_vec` and records
`dist = ‖p-proj_point‖`.  Writing `u = p2-p1` and `s = ‖u‖²` we have
`proj_point = p1 + ((p-p1)·u/s)·u` exactly, so the residual vector is
rational whenever the inputs are, and this embedding records the squared
residual norm `‖p-proj_point‖²`.  This is faithful because the square
root is strictly monotone on nonnegative reals, so the argmax taken by
the source over the distances coincides with the argmax over the squared
distances, and entry `i` here is NaN (`none`) exactly when the source's
`distances[i]` is NaN: a zero-length chord makes `s = 0` with a zero
numerator, the source's normalization then divides by zero producing
IEEE NaN (a numpy warning, not an exception), and NaN propagates through
every subsequent operation on both sides. -/
def elbowDists (x y : List OQ) : List OQ :=
  (List.range x.length).map (fun i =>
    residSq (chordX x) (chordX y) (chordSq x y)
      (osub (x.getD i none) (x.getD 0 none)) (osub (y.getD i none) (y.getD 0 none)))

/-- Embedding of `find_elbow` (`processing.py` lines 60-71 and the
identical copy in `bags.py` lines 10-24): fewer than two points returns
index 0, otherwise the argmax of the perpendicular distances to the
first-to-last chord (see `elbowDists` and `argmaxO` for the NaN and
tie-breaking conventions inherited from numpy). -/
def find_elbow (x y : List OQ) : ℕ :=
  if x.length < 2 then 0 else argmaxO (elbowDists x y)

/-! ### Threshold bagging (`build_bag_summary`)

`df_merge` (the merge of the melted absolute and percentage tables on
(Region, Type, Service_Type, Branch)) is modelled as a list of
`MergeRecord`s; `Value`/`Percentage` cells can be NaN. -/

/-- One long-form row of `df_merge` (columns Region, Type, Service_Type,
Branch, Value, Percentage). -/
structure MergeRecord where
  region : String
  type_ : String
  serviceType : String
  branch : String
  value : OQ
  percentage : OQ
deriving DecidableEq

/-- The `groupby(["Region", "Service_Type", "Type"])` key of a record. -/
def mergeKey (r : MergeRecord) : String × String × String :=
  (r.region, r.serviceType, r.type_)

/-- The pandas comparison `row["Value"] >= thresh`: NaN compares false,
so a record with missing `Value` is never selected. -/
def valueGE (t : ℚ) (r : MergeRecord) : Bool :=
  match r.value with
  | some v => if t ≤ v then true else false
  | none => false

/-- The records of one `groupby(["Region", "Service_Type", "Type"])`
group, in original row order (as pandas yields them). -/
def groupOf (df : List MergeRecord) (k : String × String × String) : List MergeRecord :=
  df.filter (fun r => if mergeKey r = k then true else false)

/-- First-occurrence deduplication, used to enumerate the groupby keys.
Pandas emits groups in sorted key order instead; since every claim here
is per-group, only the set of keys matters and the embedding keeps the
simpler first-occurrence order. -/
def dedupFirst {α : Type} [DecidableEq α] (l : List α) : List α :=
  l.foldl (fun acc a => if a ∈ acc then acc else acc ++ [a]) []

/-- Pandas `Series.sum()`: NaN entries are skipped, the empty sum is 0. -/
def pandasSum : List OQ → ℚ
  | [] => 0
  | none :: rest => pandasSum rest
  | some v :: rest => v + pandasSum rest

/-- `thresholds.get(type_, 0)`: the Python dict is modelled as an
association list; a missing Type defaults to threshold 0. -/
def lookupThresh (ths : List (String × ℚ)) (ty : String) : ℚ :=
  ((ths.find? (fun p => p.1 == ty)).map Prod.snd).getD 0

/-- One output row of `build_bag_summary`.  The source stores `Branches`
as the comma-joined string `", ".join(branch_list)`; the embedding keeps
the underlying list (the join round-trips for the comma-free, trimmed
branch codes the pipeline uses). -/
structure BagRow where
  region : String
  serviceType : String
  type_ : String
  numBranches : ℕ
  cumPct : ℚ
  branches : List String
deriving DecidableEq

/-- The row `build_bag_summary` produces for one group key: look up the
threshold for the group's Type (default 0), keep the records with
`Value >= thresh`, and report their count, the NaN-skipping sum of their
`Percentage`s, and their branch codes. -/
def bagRowFor (df : List MergeRecord) (ths : List (String × ℚ))
    (k : String × String × String) : BagRow :=
  ⟨k.1, k.2.1, k.2.2,
   ((groupOf df k).filter (valueGE (lookupThresh ths k.2.2))).length,
   pandasSum (((groupOf df k).filter (valueGE (lookupThresh ths k.2.2))).map
     (fun r => r.percentage)),
   ((groupOf df k).filter (valueGE (lookupThresh ths k.2.2))).map (fun r => r.branch)⟩

/-- Embedding of `build_bag_summary` (`processing.py` lines 35-54; the
same loop appears inline in `bags.py` lines 267-283): one `BagRow` per
(Region, Service_Type, Type) group of `df_merge`. -/
def build_bag_summary (df : List MergeRecord) (ths : List (String × ℚ)) : List BagRow :=
  (dedupFirst (df.map mergeKey)).map (bagRowFor df ths)

/-! ### Optimal branch selection (`build_optimal_branches`) -/

/-- One long-form row of `df_pct_long` (columns Region, Type,
Service_Type, Branch, Percentage). -/
structure PctRecord where
  region : String
  type_ : String
  serviceType : String
  branch : String
  percentage : OQ
deriving DecidableEq

/-- The descending-`Percentage` comparison realized by
`sort_values("Percentage", ascending=False)`: larger percentages first,
NaN sorted last (pandas' default `na_position`).  The source uses
numpy's unstable quicksort, so the order of ties is
implementation-defined; the insertion sort below realizes one admissible
order, and no claim here depends on the tie order. -/
def pctGE (a b : OQ) : Bool :=
  match a, b with
  | some x, some y => if y ≤ x then true else false
  | some _, none => true
  | none, some _ => false
  | none, none => true

/-- `pctGE` on the `percentage` fields, as a sorting relation. -/
def pctRel (a b : PctRecord) : Prop := pctGE a.percentage b.percentage = true

instance : DecidableRel pctRel := fun a b =>
  inferInstanceAs (Decidable (pctGE a.percentage b.percentage = true))

/-- Pandas `Series.cumsum()` with running total `acc`: NaN entries stay
NaN and are skipped by the running total. -/
def cumsumAux (acc : ℚ) : List OQ → List OQ
  | [] => []
  | none :: rest => none :: cumsumAux acc rest
  | some v :: rest => some (acc + v) :: cumsumAux (acc + v) rest

/-- Pandas `Series.cumsum()`. -/
def cumsum (l : List OQ) : List OQ := cumsumAux 0 l

/-- The `df_pct_long` subset gathered for one `BagRow`: rows with the
same Region, Service_Type and Type whose Branch is in the row's branch
list (`df_pct_long["Branch"].isin(branches)`). -/
def subsetFor (dfPct : List PctRecord) (row : BagRow) : List PctRecord :=
  dfPct.filter (fun p =>
    (if p.region = row.region then true else false) &&
    (if p.serviceType = row.serviceType then true else false) &&
    (if p.type_ = row.type_ then true else false) &&
    (if p.branch ∈ row.branches then true else false))

/-- The subset sorted by descending Percentage
(`sort_values("Percentage", ascending=False).reset_index(drop=True)`). -/
def sortedFor (dfPct : List PctRecord) (row : BagRow) : List PctRecord :=
  List.insertionSort pctRel (subsetFor dfPct row)

/-- The rank positions `x = np.arange(1, n+1)` as float scalars. -/
def rankList (n : ℕ) : List OQ := (List.range n).map (fun (i : ℕ) => some ((i : ℚ) + 1))

/-- One output row of `build_optimal_branches`; as with `BagRow`, the
comma-joined `Branches` string is kept as the underlying list. -/
structure OptRow where
  region : String
  serviceType : String
  type_ : String
  optNumBranches : ℕ
  optCumPct : OQ
  branches : List String
deriving DecidableEq

/-- The elbow index computed for one `BagRow`:
`find_elbow(np.arange(1, len(subset)+1), subset["Cumulative_Percentage"].values)`. -/
def elbowIdxFor (dfPct : List PctRecord) (row : BagRow) : ℕ :=
  find_elbow (rankList (sortedFor dfPct row).length)
    (cumsum ((sortedFor dfPct row).map (fun p => p.percentage)))

/-- The optional output row `build_optimal_branches` produces for one
`BagRow` (`processing.py` lines 79-113): groups whose branch list is
empty (the source's non-string/blank `Branches` check) or whose
percentage lookup is empty are skipped; otherwise
`Optimal_Num_Branches = x[elbow_idx] = elbow_idx+1`,
`Optimal_Cumulative_Percentage = y[elbow_idx]`, and the branch list is
the inclusive slice `subset.loc[:elbow_idx, "Branch"]`, i.e. the first
`elbow_idx+1` sorted branches. -/
def optRowFor (dfPct : List PctRecord) (row : BagRow) : Option OptRow :=
  if row.branches = [] then none
  else if subsetFor dfPct row = [] then none
  else some ⟨row.region, row.serviceType, row.type_,
    elbowIdxFor dfPct row + 1,
    (cumsum ((sortedFor dfPct row).map (fun p => p.percentage))).getD
      (elbowIdxFor dfPct row) none,
    ((sortedFor dfPct row).take (elbowIdxFor dfPct row + 1)).map (fun p => p.branch)⟩

/-- Embedding of `build_optimal_branches` (`processing.py` lines 77-115;
the same loop appears inline in `bags.py` lines 286-317): one optional
`OptRow` per `BagRow`, skipped rows omitted. -/
def build_optimal_branches (dfBag : List BagRow) (dfPct : List PctRecord) : List OptRow :=
  dfBag.filterMap (optRowFor dfPct)

/-! ### Dynamic flow analysis (`calculate_dynamic_flow_analysis`) -/

/-- One wide row of `all_data.csv` (`df_abs`): the metadata columns
Region/Type/Service_Type/Total and the per-branch flow value columns
(branch column name, cell value; NaN possible).  The source recomputes
`branch_cols` as all columns minus the metadata columns; `branchVals`
carries exactly those columns. -/
structure AbsRow where
  region : String
  type_ : String
  serviceType : String
  total : OQ
  branchVals : List (String × OQ)
deriving DecidableEq

/-- The fixed branch-code-first-letter → region lookup table of
`calculate_dynamic_flow_analysis` (`bags.py` lines 45-50). -/
def regionPairs : List (Char × String) :=
  [('A', "AMD"), ('B', "BLR"), ('C', "CHE"), ('E', "CJB"), ('H', "HYD"),
   ('I', "IDR"), ('J', "HHPT"), ('K', "CCU"), ('M', "MUM"), ('N', "DDL"),
   ('O', "COK"), ('P', "PNQ"), ('Q', "JAI"), ('R', "NGP"), ('T', "PAT"),
   ('U', "UPT"), ('V', "VJA"), ('W', "BBI"), ('X', "GAU")]

/-- `region_mapping.get(first_letter)`. -/
def region_mapping (c : Char) : Option String :=
  (regionPairs.find? (fun p => p.1 == c)).map Prod.snd

/-- `branch[0]` guarded by `if branch and len(branch) > 0`, fed through
the region mapping: the destination region stays undetermined for an
empty or unmapped branch code. -/
def destRegionOf (branch : String) : Option String :=
  match branch.data with
  | [] => none
  | c :: _ => region_mapping c

/-- The three accumulation matrices, as total functions
origin region → destination region → value (they start as the
zero-initialized `pd.DataFrame(0, index=regions, columns=regions)`;
cells outside the region set are never touched). -/
structure FlowState where
  flow : String → String → ℚ
  opt : String → String → ℚ
  nonopt : String → String → ℚ

/-- `m.loc[o, d] += v` as a function update. -/
def addAt (m : String → String → ℚ) (o d : String) (v : ℚ) : String → String → ℚ :=
  fun a b => if a = o ∧ b = d then m a b + v else m a b

/-- The dict lookup `optimal_branches_dict.get(key, set())`: the dict is
built by insertion over `df_optimal`'s rows with later rows overwriting
earlier ones on the same key (hence the lookup finds the last matching
row); the stored `set(branches)` is kept as the branch list, of which
only membership is consumed. -/
def lookupOptSet (dfOpt : List OptRow) (k : String × String × String) : List String :=
  ((dfOpt.reverse.find? (fun r =>
      (if r.region = k.1 then true else false) &&
      (if r.serviceType = k.2.1 then true else false) &&
      (if r.type_ = k.2.2 then true else false))).map (fun r => r.branches)).getD []

/-- Inner loop body over one branch column (`bags.py` lines 82-101):
NaN and zero flows are skipped, the destination region is derived from
the branch code's first letter, unmapped or unknown destinations are
skipped, and the flow value is accumulated into the total matrix and
into exactly one of the optimal/non-optimal matrices according to
membership of the branch in the looked-up optimal set. -/
def processBranch (regions : List String) (optSet : List String) (origin : String)
    (st : FlowState) : String × OQ → FlowState
  | (_, none) => st
  | (bname, some v) =>
    if v = 0 then st
    else
      match destRegionOf bname with
      | none => st
      | some dest =>
        if dest ∈ regions then
          { flow := addAt st.flow origin dest v,
            opt := if bname ∈ optSet then addAt st.opt origin dest v else st.opt,
            nonopt := if bname ∈ optSet then st.nonopt else addAt st.nonopt origin dest v }
        else st

/-- Outer loop body over one `df_abs` row (`bags.py` lines 68-101): rows
of a different Type are skipped; the optimal-branch set for (origin
region, service type, selected type) is looked up with empty default. -/
def processRow (dfOpt : List OptRow) (tname : String) (regions : List String)
    (st : FlowState) (row : AbsRow) : FlowState :=
  if row.type_ = tname then
    row.branchVals.foldl
      (processBranch regions (lookupOptSet dfOpt (row.region, row.serviceType, tname)) row.region)
      st
  else st

/-- `np.round` half-to-even at integer precision, on the exact
rationals (numpy rounds the nearest representable double; the embedding
works on the exact values). -/
def roundHalfEven (q : ℚ) : ℤ :=
  if q - ⌊q⌋ < 1/2 then ⌊q⌋
  else if 1/2 < q - ⌊q⌋ then ⌊q⌋ + 1
  else if Even ⌊q⌋ then ⌊q⌋ else ⌊q⌋ + 1

/-- `.round(2)`: half-to-even at two decimals. -/
def round2 (q : ℚ) : ℚ := (roundHalfEven (q * 100) : ℚ) / 100

/-- The derived percentage matrices (`bags.py` lines 103-112):
`part/total*100` rounded to 2 decimals where the total flow is
positive, 0 elsewhere. -/
def pctMatrix (total part : String → String → ℚ) : String → String → ℚ :=
  fun o d => if 0 < total o d then round2 (part o d / total o d * 100) else 0

/-- Embedding of `calculate_dynamic_flow_analysis` (`bags.py` lines
41-114): the region set is `df_abs['Region'].unique()` (first-occurrence
order); the three matrices are accumulated row by row from the all-zero
state and the two percentage matrices are derived afterwards.  Returns
the accumulated state plus (optimal-pct, non-optimal-pct). -/
def calculate_dynamic_flow_analysis (dfAbs : List AbsRow) (dfOpt : List OptRow)
    (tname : String) :
    FlowState × (String → String → ℚ) × (String → String → ℚ) :=
  let regions := dedupFirst (dfAbs.map (fun r => r.region))
  let st := dfAbs.foldl (processRow dfOpt tname regions)
    ⟨fun _ _ => 0, fun _ _ => 0, fun _ _ => 0⟩
  (st, pctMatrix st.flow st.opt, pctMatrix st.flow st.nonopt)

/-! ### Hierarchical query engine (`filter_and_sum`) -/

/-- A raw CSV cell after `pd.read_csv` type inference: cells that parse
as numbers are `num`, anything else (header text, blanks, malformed
values) is `str`.  `pd.to_numeric(errors='coerce')` turns `str` cells
into NaN. -/
inductive Cell where
  | num (q : ℚ)
  | str (s : String)
deriving DecidableEq

/-- The raw positional grid of `data.csv`
(`pd.read_csv(csv_path, header=None)`): rows of cells.  The embedding
assumes a rectangular grid (pandas pads ragged rows with NaN). -/
abbrev Grid := List (List Cell)

/-- Positional cell access; out-of-range positions yield an empty text
cell (unreachable on the rectangular grids considered here). -/
def cellAt (g : Grid) (i j : ℕ) : Cell := (g.getD i []).getD j (Cell.str "")

/-- `pd.to_numeric(errors='coerce')` on one cell. -/
def coerceCell : Cell → OQ
  | Cell.num q => some q
  | Cell.str _ => none

/-- The `product_to_mode` lookup (`algorithms.py` lines 42-46):
EP/BP map to Air, ES/BS/GP to Ground, anything else to "Unknown". -/
def productToMode (c : Cell) : Cell :=
  if c = Cell.str "EP" ∨ c = Cell.str "BP" then Cell.str "Air"
  else if c = Cell.str "ES" ∨ c = Cell.str "BS" ∨ c = Cell.str "GP" then Cell.str "Ground"
  else Cell.str "Unknown"

/-- The row MultiIndex key of data row `i` (0-based within the data
region): the five row-header columns 0-4 of sheet row `i+6`, plus the
derived mode (`algorithms.py` lines 31-57). -/
structure RowKey where
  orgZone : Cell
  orgRegion : Cell
  orgCity : Cell
  orgBranch : Cell
  orgProduct : Cell
  mode : Cell
deriving DecidableEq

/-- The column MultiIndex key of data column `j` (0-based within the
data region): the six column-header rows 0-5 of sheet column `j+5`
(`algorithms.py` lines 23-29); level 0 is the ignored level. -/
structure ColKey where
  ignored : Cell
  type_ : Cell
  desZone : Cell
  desRegion : Cell
  desCity : Cell
  desBranch : Cell
deriving DecidableEq

/-- The row key of data row `i`. -/
def rowKeyAt (g : Grid) (i : ℕ) : RowKey :=
  ⟨cellAt g (i + 6) 0, cellAt g (i + 6) 1, cellAt g (i + 6) 2, cellAt g (i + 6) 3,
   cellAt g (i + 6) 4, productToMode (cellAt g (i + 6) 4)⟩

/-- The column key of data column `j`. -/
def colKeyAt (g : Grid) (j : ℕ) : ColKey :=
  ⟨cellAt g 0 (j + 5), cellAt g 1 (j + 5), cellAt g 2 (j + 5), cellAt g 3 (j + 5),
   cellAt g 4 (j + 5), cellAt g 5 (j + 5)⟩

/-- Number of data rows: sheet rows from index 6 on
("data starts from row 7 (index 6)"). -/
def dataRowCount (g : Grid) : ℕ := g.length - 6

/-- Number of data columns: sheet columns from index 5 on
("column 6 (index 5)"). -/
def dataColCount (g : Grid) : ℕ := (g.headD []).length - 5

/-- The eleven optional equality filters of `filter_and_sum` (`type_`,
the derived `mode`, five origin levels, four destination levels);
`none` is Python's `None`, meaning no constraint on that level. -/
structure QueryFilters where
  type_ : Option Cell
  mode : Option Cell
  orgZone : Option Cell
  orgRegion : Option Cell
  orgCity : Option Cell
  orgBranch : Option Cell
  orgProduct : Option Cell
  desZone : Option Cell
  desRegion : Option Cell
  desCity : Option Cell
  desBranch : Option Cell
deriving DecidableEq

/-- All filters unset (every parameter left at its `None` default). -/
def noFilters : QueryFilters :=
  ⟨none, none, none, none, none, none, none, none, none, none, none⟩

/-- One level's mask: an unset filter matches everything, a set one
requires cell equality. -/
def matchF (f : Option Cell) (c : Cell) : Bool :=
  match f with
  | none => true
  | some v => if v = c then true else false

/-- `any(val is not None for val in row_filters)` (`algorithms.py`
line 68). -/
def anyRowFilter (f : QueryFilters) : Bool :=
  f.orgZone.isSome || f.orgRegion.isSome || f.orgCity.isSome || f.orgBranch.isSome ||
    f.orgProduct.isSome || f.mode.isSome

/-- `any(val is not None for val in col_filters)` (`algorithms.py`
line 78). -/
def anyColFilter (f : QueryFilters) : Bool :=
  f.type_.isSome || f.desZone.isSome || f.desRegion.isSome || f.desCity.isSome ||
    f.desBranch.isSome

/-- The conjunction of the row-level equality masks (`algorithms.py`
lines 65-73). -/
def rowPass (f : QueryFilters) (k : RowKey) : Bool :=
  matchF f.orgZone k.orgZone && matchF f.orgRegion k.orgRegion && matchF f.orgCity k.orgCity &&
    matchF f.orgBranch k.orgBranch && matchF f.orgProduct k.orgProduct && matchF f.mode k.mode

/-- The conjunction of the column-level equality masks (`algorithms.py`
lines 75-83); the leading `ignored` level is never filtered (the
source's `i+1` offset skips it). -/
def colPass (f : QueryFilters) (k : ColKey) : Bool :=
  matchF f.type_ k.type_ && matchF f.desZone k.desZone && matchF f.desRegion k.desRegion &&
    matchF f.desCity k.desCity && matchF f.desBranch k.desBranch

/-- The data-row indices surviving the row filters; when no row filter
is set the mask is skipped entirely and no row is excluded. -/
def survRows (g : Grid) (f : QueryFilters) : List ℕ :=
  if anyRowFilter f = true then
    (List.range (dataRowCount g)).filter (fun i => rowPass f (rowKeyAt g i))
  else List.range (dataRowCount g)

/-- The data-column indices surviving the column filters. -/
def survCols (g : Grid) (f : QueryFilters) : List ℕ :=
  if anyColFilter f = true then
    (List.range (dataColCount g)).filter (fun j => colPass f (colKeyAt g j))
  else List.range (dataColCount g)

/-- The coerced values of the surviving cells, row-major. -/
def survivingCells (g : Grid) (f : QueryFilters) : List OQ :=
  (survRows g f).flatMap (fun i =>
    (survCols g f).map (fun j => coerceCell (cellAt g (i + 6) (j + 5))))

/-- numpy `ndarray.sum()` (the source's `data_values.values.sum()`):
IEEE addition over all entries starting from 0, so NaN propagates —
this is NOT a NaN-skipping sum — and the empty sum is 0. -/
def npSum : List OQ → OQ
  | [] => some 0
  | a :: rest => oadd a (npSum rest)

/-- All coerced cells of the data block, row-major. -/
def allCells (g : Grid) : List OQ :=
  (List.range (dataRowCount g)).flatMap (fun i =>
    (List.range (dataColCount g)).map (fun j => coerceCell (cellAt g (i + 6) (j + 5))))

/-- Embedding of `filter_and_sum` (`algorithms.py` lines 3-86): read the
positional grid, build the row and column hierarchy keys from the fixed
header offsets (6 column-header rows, 5 row-header columns), coerce the
data block to numbers (non-numeric becomes NaN), apply the row and
column equality masks, and return the numpy sum of the surviving
values.  The source performs no validation of the grid's shape: the
offsets are applied positionally whatever the input looks like. -/
def filter_and_sum (g : Grid) (f : QueryFilters) : OQ :=
  npSum (survivingCells g f)

/-! ### Concrete inputs used by the witnesses -/

/-- A small `df_merge`: two numeric-valued records and one NaN-valued
record in a single (Region, Service_Type, Type) group. -/
def dfMerge0 : List MergeRecord :=
  [⟨"R", "T", "S", "B1", some 10, some 60⟩,
   ⟨"R", "T", "S", "B2", some 3, some 40⟩,
   ⟨"R", "T", "S", "B3", none, some 5⟩]

/-- Threshold configuration mapping Type "T" to 5. -/
def thsMerge0 : List (String × ℚ) := [("T", 5)]

/-- The single row `build_bag_summary` produces on `dfMerge0` with
`thsMerge0`: only branch B1 has `Value >= 5`. -/
def bagRow0 : BagRow := ⟨"R", "S", "T", 1, 60, ["B1"]⟩

/-- A one-row bag summary whose group has two surviving branches. -/
def dfBag0 : List BagRow := [⟨"R", "S", "T", 2, 100, ["B1", "B2"]⟩]

/-- The percentage rows for the group of `dfBag0`. -/
def dfPct0 : List PctRecord :=
  [⟨"R", "T", "S", "B1", some 60⟩, ⟨"R", "T", "S", "B2", some 40⟩]

/-- The single row `build_optimal_branches` produces on `dfBag0` and
`dfPct0`: the elbow of the cumulative curve [60, 100] is at index 0, so
one branch (B1) is selected. -/
def optRow0 : OptRow := ⟨"R", "S", "T", 1, some 60, ["B1"]⟩

/-- A header sheet row: five corner cells then one header value per
data column. -/
def hrow (a b : Cell) : List Cell :=
  [Cell.str "x", Cell.str "x", Cell.str "x", Cell.str "x", Cell.str "x", a, b]

/-- A well-formed sheet in the documented layout: 6 column-header rows,
5 row-header columns, and a 2×2 numeric data block [[10, 20], [30, 40]]. -/
def gQ : Grid :=
  [hrow (Cell.str "ig") (Cell.str "ig"),
   hrow (Cell.str "V") (Cell.str "V"),
   hrow (Cell.str "DZ") (Cell.str "DZ"),
   hrow (Cell.str "DR") (Cell.str "DR"),
   hrow (Cell.str "DC") (Cell.str "DC"),
   hrow (Cell.str "DB1") (Cell.str "DB2"),
   [Cell.str "OZ", Cell.str "OR", Cell.str "OC", Cell.str "OB1", Cell.str "EP",
    Cell.num 10, Cell.num 20],
   [Cell.str "OZ", Cell.str "OR", Cell.str "OC", Cell.str "OB2", Cell.str "ES",
    Cell.num 30, Cell.num 40]]

/-- A malformed sheet: the same data as `gQ` but with only 5
column-header rows (the first header row is missing), so the first data
row sits at sheet row 5 where the code expects the 6th header row. -/
def gBad : Grid := gQ.drop 1

/-- One exact-match filter per level, picking gQ's second data row
(origin branch OB2, product ES, hence derived mode Ground) and second
data column (destination branch DB2). -/
def fUnique : QueryFilters :=
  ⟨some (Cell.str "V"), some (Cell.str "Ground"), some (Cell.str "OZ"), some (Cell.str "OR"),
   some (Cell.str "OC"), some (Cell.str "OB2"), some (Cell.str "ES"), some (Cell.str "DZ"),
   some (Cell.str "DR"), some (Cell.str "DC"), some (Cell.str "DB2")⟩

/-- A sheet like `gQ` but with a single data row holding one numeric and
one non-numeric data cell. -/
def gNaN : Grid :=
  [hrow (Cell.str "ig") (Cell.str "ig"),
   hrow (Cell.str "V") (Cell.str "V"),
   hrow (Cell.str "DZ") (Cell.str "DZ"),
   hrow (Cell.str "DR") (Cell.str "DR"),
   hrow (Cell.str "DC") (Cell.str "DC"),
   hrow (Cell.str "DB1") (Cell.str "DB2"),
   [Cell.str "OZ", Cell.str "OR", Cell.str "OC", Cell.str "OB1", Cell.str "EP",
    Cell.num 10, Cell.str "oops"]]

/-! ### Evaluation equations for the scalar operations -/

theorem oadd_ss (a b : ℚ) : oadd (some a) (some b) = some (a + b) := rfl

theorem oadd_nl (b : OQ) : oadd none b = none := rfl

theorem oadd_nr (a : OQ) : oadd a none = none := by cases a <;> rfl

theorem osub_ss (a b : ℚ) : osub (some a) (some b) = some (a - b) := rfl

theorem osub_nl (b : OQ) : osub none b = none := rfl

theorem osub_nr (a : OQ) : osub a none = none := by cases a <;> rfl

theorem omul_ss (a b : ℚ) : omul (some a) (some b) = some (a * b) := rfl

theorem omul_nl (b : OQ) : omul none b = none := rfl

theorem omul_nr (a : OQ) : omul a none = none := by cases a <;> rfl

theorem odiv_ss (a b : ℚ) (h : b ≠ 0) : odiv (some a) (some b) = some (a / b) := by
  simp [odiv, h]

theorem odiv_s0 (a : ℚ) : odiv (some a) (some 0) = none := by simp [odiv]

theorem odiv_nl (b : OQ) : odiv none b = none := rfl

theorem odiv_nr (a : OQ) : odiv a none = none := by cases a <;> rfl

/-! ### Bounds for the argmax -/

theorem idxMaxAux_lt :
    ∀ (rest : List ℚ) (best : ℕ) (bv : ℚ) (i n : ℕ),
      best < n → i + rest.length ≤ n → idxMaxAux best bv i rest < n
  | [], best, bv, i, n, hb, _ => by simpa [idxMaxAux] using hb
  | v :: rest, best, bv, i, n, hb, hi => by
    have hi' : i + rest.length + 1 ≤ n := by simpa [Nat.add_assoc, Nat.add_comm] using hi
    simp only [idxMaxAux]
    split
    · exact idxMaxAux_lt rest i v (i + 1) n (by omega) (by omega)
    · exact idxMaxAux_lt rest best bv (i + 1) n hb (by omega)

theorem idxMax_lt (l : List ℚ) (h : l ≠ []) : idxMax l < l.length := by
  match l with
  | v :: rest =>
    simpa [idxMax] using idxMaxAux_lt rest 0 v 1 (rest.length + 1) (by omega) (by omega)

theorem firstNoneIdx_lt : ∀ (l : List OQ) (i : ℕ), firstNoneIdx l = some i → i < l.length
  | [], _, h => by simp [firstNoneIdx] at h
  | none :: _, _, h => by
    simp only [firstNoneIdx, Option.some.injEq] at h
    simp [← h]
  | some _ :: rest, i, h => by
    simp only [firstNoneIdx, Option.map_eq_some'] at h
    obtain ⟨j, hj, rfl⟩ := h
    have := firstNoneIdx_lt rest j hj
    simp
    omega

theorem argmaxO_lt (l : List OQ) (h : l ≠ []) : argmaxO l < l.length := by
  unfold argmaxO
  split
  · exact firstNoneIdx_lt l _ (by assumption)
  · have := idxMax_lt (l.map (fun a => a.getD 0)) (by simpa using h)
    simpa using this

theorem argmaxO_of_all_none (l : List OQ) (h : l ≠ []) (ha : ∀ a ∈ l, a = none) :
    argmaxO l = 0 := by
  match l with
  | a :: t =>
    have : a = none := ha a (List.mem_cons_self a t)
    subst this
    rfl

theorem find_elbow_lt (x y : List OQ) (h : x ≠ []) : find_elbow x y < x.length := by
  unfold find_elbow
  split
  · exact List.length_pos.mpr h
  · have hne : elbowDists x y ≠ [] := by
      have : (elbowDists x y).length = x.length := by simp [elbowDists]
      intro hc
      rw [hc] at this
      exact h (List.eq_nil_of_length_eq_zero this.symm)
    have := argmaxO_lt (elbowDists x y) hne
    simpa [elbowDists] using this

/-- On a degenerate (zero-length) chord every entry of the distance list
is NaN, because the projection coefficient is `0/0 = NaN` and NaN
propagates. -/
theorem residSq_degenerate (dx dy : OQ) : residSq (some 0) (some 0) (some 0) dx dy = none := by
  rcases dx with _ | a <;> rcases dy with _ | b <;>
    simp [residSq, projT, odiv, oadd, omul, osub]

/-- Claim C3: for every pair of equal-length sequences with at least two
points whose first and last points coincide (a zero-length chord),
`find_elbow` does not fail on the zero-norm division — numpy produces
NaN, not an exception — and returns the defined fallback index 0 (every
distance is NaN and `np.argmax` returns the first NaN index). -/
theorem find_elbow_degenerate_chord (x y : List OQ)
    (h2 : 2 ≤ x.length) (hlen : x.length = y.length)
    (hx : x.getD 0 none = x.getLastD none) (hy : y.getD 0 none = y.getLastD none)
    (hxs : (x.getD 0 none).isSome) (hys : (y.getD 0 none).isSome) :
    find_elbow x y = 0 := by
  obtain ⟨a, ha⟩ := Option.isSome_iff_exists.mp hxs
  obtain ⟨b, hb⟩ := Option.isSome_iff_exists.mp hys
  have hcx : chordX x = some 0 := by
    rw [chordX, ← hx, ha]
    simp [osub_ss]
  have hcy : chordX y = some 0 := by
    rw [chordX, ← hy, hb]
    simp [osub_ss]
  have hcs : chordSq x y = some 0 := by
    rw [chordSq, hcx, hcy]
    simp [omul_ss, oadd_ss]
  have hnotlt : ¬ x.length < 2 := by omega
  rw [find_elbow, if_neg hnotlt]
  apply argmaxO_of_all_none
  · have : (elbowDists x y).length = x.length := by simp [elbowDists]
    intro hc
    rw [hc] at this
    simp at this
    omega
  · intro c hc
    rw [elbowDists] at hc
    simp only [List.mem_map] at hc
    obtain ⟨i, -, rfl⟩ := hc
    rw [hcx, hcy, hcs]
    exact residSq_degenerate _ _

/-- Claim C3 witness: the degenerate two-point input `x = [2,2]`,
`y = [7,7]` satisfies the hypotheses and `find_elbow` returns 0. -/
theorem find_elbow_degenerate_chord_witness :
    2 ≤ ([some 2, some 2] : List OQ).length ∧
      find_elbow [some 2, some 2] [some (7:ℚ), some 7] = 0 :=
  ⟨by norm_num,
   find_elbow_degenerate_chord [some 2, some 2] [some 7, some 7]
     (by norm_num) rfl rfl rfl rfl rfl⟩

/-- Claim C7: `find_elbow` returns 0 for a single point, and on the
perfectly collinear input `x = [1,2,3]`, `y = [10,20,30]` every
perpendicular distance is zero (shown here as squared distances) and the
stable argmax returns the first maximal index 0 instead of erroring. -/
theorem find_elbow_single_and_collinear :
    find_elbow [some 1] [some 100] = 0 ∧
      find_elbow [some 1, some 2, some 3] [some 10, some 20, some 30] = 0 ∧
      elbowDists [some 1, some 2, some 3] [some 10, some 20, some 30] =
        [some 0, some 0, some 0] := by
  refine ⟨by norm_num [find_elbow], ?_, ?_⟩ <;>
    norm_num [find_elbow, elbowDists, residSq, projT, chordX, chordSq, argmaxO, firstNoneIdx,
      idxMax, idxMaxAux, oadd_ss, oadd_nl, oadd_nr, osub_ss, osub_nl, osub_nr, omul_ss, omul_nl,
      omul_nr, odiv_ss, odiv_s0, odiv_nl, odiv_nr, List.range_succ]

/-- Claim C10: on empty input `find_elbow` takes the fewer-than-two-points
branch and returns 0 for every `y`, without inspecting `y`, even though
the empty input has no point with index 0. -/
theorem find_elbow_empty (y : List OQ) :
    find_elbow [] y = 0 ∧ ([] : List OQ).length = 0 := ⟨rfl, rfl⟩

/-! ### Threshold bagging lemmas -/

theorem pandasSum_cons (o : OQ) (l : List OQ) :
    pandasSum (o :: l) = o.getD 0 + pandasSum l := by
  cases o <;> simp [pandasSum]

theorem valueGE_true_iff (t : ℚ) (r : MergeRecord) :
    valueGE t r = true ↔ ∃ v, r.value = some v ∧ t ≤ v := by
  unfold valueGE
  rcases hv : r.value with _ | v
  · simp
  · constructor
    · intro hif
      refine ⟨v, rfl, ?_⟩
      by_contra hc
      have hif' : (if t ≤ v then true else false) = true := hif
      rw [if_neg hc] at hif'
      exact absurd hif' (by simp)
    · rintro ⟨w, hw, hle⟩
      injection hw with hvw
      subst hvw
      show (if t ≤ v then true else false) = true
      rw [if_pos hle]

theorem valueGE_mono {t t' : ℚ} (h : t ≤ t') (r : MergeRecord)
    (hr : valueGE t' r = true) : valueGE t r = true := by
  rw [valueGE_true_iff] at hr ⊢
  obtain ⟨v, hv, hle⟩ := hr
  exact ⟨v, hv, le_trans h hle⟩

theorem filter_length_mono {α : Type} (p q : α → Bool)
    (himp : ∀ a, q a = true → p a = true) :
    ∀ l : List α, (l.filter q).length ≤ (l.filter p).length := by
  intro l
  induction l with
  | nil => simp
  | cons a t ih =>
    rw [List.filter_cons, List.filter_cons]
    by_cases hq : q a = true
    · rw [if_pos hq, if_pos (himp a hq)]
      simpa using ih
    · rw [if_neg hq]
      by_cases hp : p a = true
      · rw [if_pos hp]
        exact le_trans ih (by simp)
      · rw [if_neg hp]
        exact ih

theorem pandasSum_filter_mono {α : Type} (p q : α → Bool) (f : α → OQ)
    (himp : ∀ a, q a = true → p a = true) :
    ∀ l : List α, (∀ a ∈ l, 0 ≤ (f a).getD 0) →
      pandasSum ((l.filter q).map f) ≤ pandasSum ((l.filter p).map f) := by
  intro l
  induction l with
  | nil => simp
  | cons a t ih =>
    intro hpos
    have hpos' : ∀ b ∈ t, 0 ≤ (f b).getD 0 := fun b hb => hpos b (List.mem_cons_of_mem a hb)
    have hfa : 0 ≤ (f a).getD 0 := hpos a (List.mem_cons_self a t)
    rw [List.filter_cons, List.filter_cons]
    by_cases hq : q a = true
    · rw [if_pos hq, if_pos (himp a hq)]
      simp only [List.map_cons, pandasSum_cons]
      exact add_le_add_left (ih hpos') _
    · rw [if_neg hq]
      by_cases hp : p a = true
      · rw [if_pos hp]
        simp only [List.map_cons, pandasSum_cons]
        calc pandasSum ((t.filter q).map f) ≤ pandasSum ((t.filter p).map f) := ih hpos'
          _ ≤ (f a).getD 0 + pandasSum ((t.filter p).map f) := by linarith
      · rw [if_neg hp]
        exact ih hpos'

theorem filter_nan_first (l : List MergeRecord) (t : ℚ) :
    (l.filter (fun m => m.value.isSome)).filter (valueGE t) = l.filter (valueGE t) := by
  rw [List.filter_filter]
  apply List.filter_congr
  intro m _
  rcases hv : m.value with _ | v <;> simp [valueGE, hv]

/-- Claim C5: for every row of `build_bag_summary` (threshold defaulting
to 0 for Types absent from the configuration, via `lookupThresh`), the
reported `Cumulative_Percentage` is the sum of `Percentage` over exactly
the group's records with `Value >= threshold` (inclusive boundary), and
replacing the threshold by any larger value `t'` never increases the
branch count or the cumulative percentage (the latter assuming
non-negative percentages). -/
theorem build_bag_summary_threshold_sum_monotone
    (df : List MergeRecord) (ths : List (String × ℚ)) (r : BagRow)
    (hr : r ∈ build_bag_summary df ths) (t' : ℚ)
    (ht : lookupThresh ths r.type_ ≤ t')
    (hpos : ∀ m ∈ groupOf df (r.region, r.serviceType, r.type_), 0 ≤ m.percentage.getD 0) :
    r.cumPct = pandasSum (((groupOf df (r.region, r.serviceType, r.type_)).filter
        (valueGE (lookupThresh ths r.type_))).map (fun m => m.percentage)) ∧
      ((groupOf df (r.region, r.serviceType, r.type_)).filter (valueGE t')).length ≤
        r.numBranches ∧
      pandasSum (((groupOf df (r.region, r.serviceType, r.type_)).filter (valueGE t')).map
        (fun m => m.percentage)) ≤ r.cumPct := by
  rw [build_bag_summary] at hr
  obtain ⟨k, hk, rfl⟩ := List.mem_map.mp hr
  obtain ⟨k1, k2, k3⟩ := k
  refine ⟨rfl, ?_, ?_⟩
  · exact filter_length_mono _ _ (fun a ha => valueGE_mono ht a ha) _
  · exact pandasSum_filter_mono _ _ _ (fun a ha => valueGE_mono ht a ha) _ hpos

/-- Claim C5 witness: on `dfMerge0` with thresholds `thsMerge0` the
output row is `bagRow0`, its cumulative percentage is the sum over the
threshold survivors, and raising the threshold from 5 to 20 does not
increase the count or the cumulative percentage. -/
theorem build_bag_summary_threshold_sum_monotone_witness :
    bagRow0 ∈ build_bag_summary dfMerge0 thsMerge0 ∧
      lookupThresh thsMerge0 bagRow0.type_ ≤ 20 ∧
      (bagRow0.cumPct = pandasSum (((groupOf dfMerge0
            (bagRow0.region, bagRow0.serviceType, bagRow0.type_)).filter
            (valueGE (lookupThresh thsMerge0 bagRow0.type_))).map (fun m => m.percentage)) ∧
        ((groupOf dfMerge0 (bagRow0.region, bagRow0.serviceType, bagRow0.type_)).filter
            (valueGE 20)).length ≤ bagRow0.numBranches ∧
        pandasSum (((groupOf dfMerge0
            (bagRow0.region, bagRow0.serviceType, bagRow0.type_)).filter (valueGE 20)).map
            (fun m => m.percentage)) ≤ bagRow0.cumPct) :=
  have hmem : bagRow0 ∈ build_bag_summary dfMerge0 thsMerge0 := by
    norm_num [build_bag_summary, dedupFirst, bagRowFor, groupOf, mergeKey, valueGE, lookupThresh,
      pandasSum, dfMerge0, thsMerge0, bagRow0, List.filter]
  have ht : lookupThresh thsMerge0 bagRow0.type_ ≤ 20 := by
    norm_num [lookupThresh, thsMerge0, bagRow0]
  have hpos : ∀ m ∈ groupOf dfMerge0 (bagRow0.region, bagRow0.serviceType, bagRow0.type_),
      0 ≤ m.percentage.getD 0 := by
    intro m hm
    simp [groupOf, dfMerge0, mergeKey, bagRow0, List.filter] at hm
    rcases hm with h | h | h <;> subst h <;> norm_num
  ⟨hmem, ht,
    build_bag_summary_threshold_sum_monotone dfMerge0 thsMerge0 bagRow0 hmem 20 ht hpos⟩

/-- Claim C9: a record whose `Value` is NaN is never selected by the
threshold comparison `Value >= thresh`, for every threshold (including
0): the comparison is false outright, and consequently every reported
field of a `build_bag_summary` row — `Num_Branches`,
`Cumulative_Percentage` and the `Branches` list — is unchanged when the
NaN-valued records of its group are discarded before thresholding. -/
theorem build_bag_summary_nan_value_excluded :
    (∀ (t : ℚ) (m : MergeRecord), valueGE t { m with value := none } = false) ∧
      ∀ (df : List MergeRecord) (ths : List (String × ℚ)) (r : BagRow),
        r ∈ build_bag_summary df ths →
          r.numBranches = (((groupOf df (r.region, r.serviceType, r.type_)).filter
              (fun m => m.value.isSome)).filter (valueGE (lookupThresh ths r.type_))).length ∧
            r.cumPct = pandasSum ((((groupOf df (r.region, r.serviceType, r.type_)).filter
              (fun m => m.value.isSome)).filter (valueGE (lookupThresh ths r.type_))).map
              (fun m => m.percentage)) ∧
            r.branches = (((groupOf df (r.region, r.serviceType, r.type_)).filter
              (fun m => m.value.isSome)).filter (valueGE (lookupThresh ths r.type_))).map
              (fun m => m.branch) := by
  constructor
  · intro t m
    rfl
  · intro df ths r hr
    rw [build_bag_summary] at hr
    obtain ⟨k, hk, rfl⟩ := List.mem_map.mp hr
    obtain ⟨k1, k2, k3⟩ := k
    simp only [filter_nan_first]
    exact ⟨rfl, rfl, rfl⟩

/-- Claim C9 witness: on `dfMerge0` (whose third record has NaN `Value`)
the reported row `bagRow0` coincides with the computation that discards
NaN-valued records first. -/
theorem build_bag_summary_nan_value_excluded_witness :
    bagRow0 ∈ build_bag_summary dfMerge0 thsMerge0 ∧
      (bagRow0.numBranches = (((groupOf dfMerge0
            (bagRow0.region, bagRow0.serviceType, bagRow0.type_)).filter
            (fun m => m.value.isSome)).filter
            (valueGE (lookupThresh thsMerge0 bagRow0.type_))).length ∧
        bagRow0.cumPct = pandasSum ((((groupOf dfMerge0
            (bagRow0.region, bagRow0.serviceType, bagRow0.type_)).filter
            (fun m => m.value.isSome)).filter
            (valueGE (lookupThresh thsMerge0 bagRow0.type_))).map (fun m => m.percentage)) ∧
        bagRow0.branches = (((groupOf dfMerge0
            (bagRow0.region, bagRow0.serviceType, bagRow0.type_)).filter
            (fun m => m.value.isSome)).filter
            (valueGE (lookupThresh thsMerge0 bagRow0.type_))).map (fun m => m.branch)) :=
  have hmem : bagRow0 ∈ build_bag_summary dfMerge0 thsMerge0 := by
    norm_num [build_bag_summary, dedupFirst, bagRowFor, groupOf, mergeKey, valueGE, lookupThresh,
      pandasSum, dfMerge0, thsMerge0, bagRow0, List.filter]
  ⟨hmem, build_bag_summary_nan_value_excluded.2 dfMerge0 thsMerge0 bagRow0 hmem⟩

/-! ### Optimal branch selection lemmas -/

theorem ite_tf_eq_true {c : Prop} [Decidable c] : (if c then true else false) = true ↔ c := by
  by_cases h : c <;> simp [h]

theorem subsetFor_mem (dfPct : List PctRecord) (row : BagRow) (p : PctRecord)
    (hp : p ∈ subsetFor dfPct row) :
    p ∈ dfPct ∧ p.region = row.region ∧ p.serviceType = row.serviceType ∧
      p.type_ = row.type_ ∧ p.branch ∈ row.branches := by
  rw [subsetFor, List.mem_filter] at hp
  obtain ⟨hmem, hcond⟩ := hp
  simp only [Bool.and_eq_true, ite_tf_eq_true] at hcond
  exact ⟨hmem, hcond.1.1.1, hcond.1.1.2, hcond.1.2, hcond.2⟩

theorem subsetFor_branch_nodup (dfPct : List PctRecord) (row : BagRow)
    (hkeys : (dfPct.map (fun p => (p.region, p.serviceType, p.type_, p.branch))).Nodup) :
    ((subsetFor dfPct row).map (fun p => p.branch)).Nodup := by
  have hinj := List.inj_on_of_nodup_map hkeys
  have hnodup : dfPct.Nodup := List.Nodup.of_map _ hkeys
  have hsubnodup : (subsetFor dfPct row).Nodup := hnodup.filter _
  refine List.Nodup.map_on ?_ hsubnodup
  intro x hx y hy hxy
  have hxs := subsetFor_mem dfPct row x hx
  have hys := subsetFor_mem dfPct row y hy
  apply hinj hxs.1 hys.1
  rw [hxs.2.1, hys.2.1, hxs.2.2.1, hys.2.2.1, hxs.2.2.2.1, hys.2.2.2.1, hxy]

theorem elbowIdxFor_lt (dfPct : List PctRecord) (row : BagRow)
    (h : subsetFor dfPct row ≠ []) :
    elbowIdxFor dfPct row < (sortedFor dfPct row).length := by
  have hperm : List.Perm (sortedFor dfPct row) (subsetFor dfPct row) :=
    List.perm_insertionSort pctRel (subsetFor dfPct row)
  have hne : sortedFor dfPct row ≠ [] := by
    intro hc
    apply h
    have hl := hperm.length_eq
    rw [hc] at hl
    simp at hl
    exact List.eq_nil_of_length_eq_zero hl.symm
  have hxlen : (rankList (sortedFor dfPct row).length).length =
      (sortedFor dfPct row).length := by
    rw [rankList, List.length_map, List.length_range]
  have hx : rankList (sortedFor dfPct row).length ≠ [] := by
    intro hc
    rw [hc] at hxlen
    simp at hxlen
    exact hne (List.eq_nil_of_length_eq_zero hxlen.symm)
  have hb := find_elbow_lt (rankList (sortedFor dfPct row).length)
    (cumsum ((sortedFor dfPct row).map (fun p => p.percentage))) hx
  rw [hxlen] at hb
  exact hb

/-- Claim C6: for every `BagRow` that yields an output row (non-empty
branch list and non-empty percentage lookup), assuming composite-key
uniqueness of `df_pct_long` (one row per (Region, Service_Type, Type,
Branch)) and consistency of the bag rows (`Num_Branches` equals the
branch-list length, which `build_bag_summary` guarantees), the produced
`Optimal_Num_Branches = elbow_idx + 1` is at most the `Num_Branches` of
the originating bag row, and the selected branches are a subset of that
row's threshold-surviving branch list. -/
theorem build_optimal_branches_subset_invariant
    (dfBag : List BagRow) (dfPct : List PctRecord)
    (hkeys : (dfPct.map (fun p => (p.region, p.serviceType, p.type_, p.branch))).Nodup)
    (hwf : ∀ r ∈ dfBag, r.numBranches = r.branches.length) :
    ∀ s ∈ build_optimal_branches dfBag dfPct,
      ∃ r ∈ dfBag, r.region = s.region ∧ r.serviceType = s.serviceType ∧
        r.type_ = s.type_ ∧ s.optNumBranches ≤ r.numBranches ∧
        ∀ b ∈ s.branches, b ∈ r.branches := by
  intro s hs
  rw [build_optimal_branches] at hs
  obtain ⟨r, hrmem, hr⟩ := List.mem_filterMap.mp hs
  refine ⟨r, hrmem, ?_⟩
  rw [optRowFor] at hr
  by_cases h1 : r.branches = []
  · rw [if_pos h1] at hr
    exact absurd hr (by simp)
  rw [if_neg h1] at hr
  by_cases h2 : subsetFor dfPct r = []
  · rw [if_pos h2] at hr
    exact absurd hr (by simp)
  rw [if_neg h2] at hr
  injection hr with hr
  subst hr
  have hperm : List.Perm (sortedFor dfPct r) (subsetFor dfPct r) :=
    List.perm_insertionSort pctRel (subsetFor dfPct r)
  have hlt : elbowIdxFor dfPct r < (sortedFor dfPct r).length := elbowIdxFor_lt dfPct r h2
  have hnodup := subsetFor_branch_nodup dfPct r hkeys
  have hsubl : (subsetFor dfPct r).map (fun p => p.branch) ⊆ r.branches := by
    intro b hb
    obtain ⟨p, hp, rfl⟩ := List.mem_map.mp hb
    exact (subsetFor_mem dfPct r p hp).2.2.2.2
  have hlen2 : (subsetFor dfPct r).length ≤ r.branches.length := by
    have hle := (List.subperm_of_subset hnodup hsubl).length_le
    simpa using hle
  refine ⟨rfl, rfl, rfl, ?_, ?_⟩
  · rw [hwf r hrmem]
    have h3 : elbowIdxFor dfPct r + 1 ≤ (sortedFor dfPct r).length := hlt
    have h4 : (sortedFor dfPct r).length = (subsetFor dfPct r).length := hperm.length_eq
    show elbowIdxFor dfPct r + 1 ≤ r.branches.length
    omega
  · intro b hb
    obtain ⟨p, hp, rfl⟩ := List.mem_map.mp hb
    have hpmem : p ∈ sortedFor dfPct r := List.mem_of_mem_take hp
    have hpsub : p ∈ subsetFor dfPct r := hperm.mem_iff.mp hpmem
    exact (subsetFor_mem dfPct r p hpsub).2.2.2.2

/-- Claim C6 witness: on `dfBag0` and `dfPct0` the selector outputs
`optRow0`, whose branch count 1 is at most `Num_Branches = 2` and whose
branch list is contained in the bag row's list. -/
theorem build_optimal_branches_subset_invariant_witness :
    optRow0 ∈ build_optimal_branches dfBag0 dfPct0 ∧
      ∃ r ∈ dfBag0, r.region = optRow0.region ∧ r.serviceType = optRow0.serviceType ∧
        r.type_ = optRow0.type_ ∧ optRow0.optNumBranches ≤ r.numBranches ∧
        ∀ b ∈ optRow0.branches, b ∈ r.branches :=
  have hkeys : (dfPct0.map (fun p => (p.region, p.serviceType, p.type_, p.branch))).Nodup := by
    simp [dfPct0]
  have hwf : ∀ r ∈ dfBag0, r.numBranches = r.branches.length := by
    intro r hr
    simp [dfBag0] at hr
    subst hr
    rfl
  have hmem : optRow0 ∈ build_optimal_branches dfBag0 dfPct0 := by
    norm_num [build_optimal_branches, optRowFor, elbowIdxFor, subsetFor, sortedFor, rankList,
      cumsum, cumsumAux, find_elbow, elbowDists, residSq, projT, chordX, chordSq, argmaxO,
      firstNoneIdx, idxMax, idxMaxAux, pctRel, pctGE, List.insertionSort, List.orderedInsert,
      oadd_ss, oadd_nl, oadd_nr, osub_ss, osub_nl, osub_nr, omul_ss, omul_nl, omul_nr,
      odiv_ss, odiv_s0, odiv_nl, odiv_nr, dfBag0, dfPct0, optRow0, List.filter, List.range_succ]
    constructor <;> simp
  ⟨hmem, build_optimal_branches_subset_invariant dfBag0 dfPct0 hkeys hwf optRow0 hmem⟩

/-! ### Flow decomposition lemmas -/

theorem processBranch_partition (regions optSet : List String) (origin : String)
    (st : FlowState) (bv : String × OQ)
    (h : ∀ o d, st.opt o d + st.nonopt o d = st.flow o d) :
    ∀ o d, (processBranch regions optSet origin st bv).opt o d +
        (processBranch regions optSet origin st bv).nonopt o d =
        (processBranch regions optSet origin st bv).flow o d := by
  intro o d
  rcases bv with ⟨bname, bval⟩
  rcases bval with _ | v
  · exact h o d
  · rw [processBranch]
    split
    · exact h o d
    · rcases hdest : destRegionOf bname with _ | dest
      · exact h o d
      · simp only []
        split
        · by_cases hmem : bname ∈ optSet
          · simp only [if_pos hmem, addAt]
            split_ifs
            · have := h o d
              linarith
            · exact h o d
          · simp only [if_neg hmem, addAt]
            split_ifs
            · have := h o d
              linarith
            · exact h o d
        · exact h o d

theorem foldl_branches_partition (regions optSet : List String) (origin : String) :
    ∀ (l : List (String × OQ)) (st : FlowState),
      (∀ o d, st.opt o d + st.nonopt o d = st.flow o d) →
      ∀ o d, ((l.foldl (processBranch regions optSet origin) st).opt o d) +
          ((l.foldl (processBranch regions optSet origin) st).nonopt o d) =
          ((l.foldl (processBranch regions optSet origin) st).flow o d) := by
  intro l
  induction l with
  | nil => intro st h; simpa using h
  | cons a t ih =>
    intro st h
    rw [List.foldl_cons]
    exact ih _ (processBranch_partition regions optSet origin st a h)

theorem processRow_partition (dfOpt : List OptRow) (tname : String) (regions : List String)
    (st : FlowState) (row : AbsRow)
    (h : ∀ o d, st.opt o d + st.nonopt o d = st.flow o d) :
    ∀ o d, (processRow dfOpt tname regions st row).opt o d +
        (processRow dfOpt tname regions st row).nonopt o d =
        (processRow dfOpt tname regions st row).flow o d := by
  intro o d
  rw [processRow]
  split
  · exact foldl_branches_partition _ _ _ _ st h o d
  · exact h o d

theorem foldl_rows_partition (dfOpt : List OptRow) (tname : String) (regions : List String) :
    ∀ (l : List AbsRow) (st : FlowState),
      (∀ o d, st.opt o d + st.nonopt o d = st.flow o d) →
      ∀ o d, ((l.foldl (processRow dfOpt tname regions) st).opt o d) +
          ((l.foldl (processRow dfOpt tname regions) st).nonopt o d) =
          ((l.foldl (processRow dfOpt tname regions) st).flow o d) := by
  intro l
  induction l with
  | nil => intro st h; simpa using h
  | cons a t ih =>
    intro st h
    rw [List.foldl_cons]
    exact ih _ (processRow_partition dfOpt tname regions st a h)

/-- Claim C4: for every input table, optimal-branch table, selected type
and every origin/destination region pair (in particular every pair from
the region set), after `calculate_dynamic_flow_analysis` completes its
accumulation the optimal and non-optimal matrices partition the total
flow matrix cell by cell:
`optimal[o][d] + non_optimal[o][d] = flow[o][d]` exactly — every
accumulated flow value is counted in exactly one of the two parts. -/
theorem flow_decomposition_partition (dfAbs : List AbsRow) (dfOpt : List OptRow)
    (tname : String) (o d : String) :
    (calculate_dynamic_flow_analysis dfAbs dfOpt tname).1.opt o d +
      (calculate_dynamic_flow_analysis dfAbs dfOpt tname).1.nonopt o d =
      (calculate_dynamic_flow_analysis dfAbs dfOpt tname).1.flow o d := by
  rw [calculate_dynamic_flow_analysis]
  exact foldl_rows_partition dfOpt tname _ dfAbs
    ⟨fun _ _ => 0, fun _ _ => 0, fun _ _ => 0⟩ (fun _ _ => by simp) o d

/-! ### Query engine lemmas -/

theorem npSum_all_some :
    ∀ l : List OQ, (∀ a ∈ l, a.isSome) → npSum l = some ((l.filterMap id).sum) := by
  intro l
  induction l with
  | nil => intro h; rfl
  | cons a t ih =>
    intro h
    obtain ⟨v, hv⟩ := Option.isSome_iff_exists.mp (h a (List.mem_cons_self a t))
    subst hv
    rw [npSum, ih (fun b hb => h b (List.mem_cons_of_mem _ hb)), oadd_ss]
    simp [List.filterMap_cons]

theorem npSum_none_mem : ∀ l : List OQ, Option.none ∈ l → npSum l = none := by
  intro l
  induction l with
  | nil => intro h; simp at h
  | cons a t ih =>
    intro h
    rw [npSum]
    rcases List.mem_cons.mp h with rfl | hmem
    · rfl
    · rw [ih hmem, oadd_nr]

/-- Claim C1 (amended): `filter_and_sum` coerces non-numeric cells to
NaN and returns the NaN-PROPAGATING numpy sum of the surviving cells:
the numeric sum when every surviving cell is numeric, and NaN as soon as
at least one surviving cell is non-numeric (`ndarray.sum` does not skip
NaN — the claimed NaN-skipping behaviour fails, see the
counterexample). -/
theorem filter_and_sum_nan_propagating (g : Grid) (f : QueryFilters) :
    ((∀ a ∈ survivingCells g f, a.isSome) →
        filter_and_sum g f = some (((survivingCells g f).filterMap id).sum)) ∧
      (Option.none ∈ survivingCells g f → filter_and_sum g f = none) :=
  ⟨fun h => npSum_all_some _ h, fun h => npSum_none_mem _ h⟩

/-- Claim C1 counterexample: on `gNaN` (one surviving numeric cell 10,
one surviving non-numeric cell) the claimed NaN-skipping sum would be
10, but `filter_and_sum` returns NaN. -/
theorem filter_and_sum_nan_counterexample :
    filter_and_sum gNaN noFilters = none ∧
      ((survivingCells gNaN noFilters).filterMap id).sum = 10 := by
  constructor <;>
    norm_num [filter_and_sum, npSum, survivingCells, survRows, survCols, anyRowFilter,
      anyColFilter, noFilters, dataRowCount, dataColCount, gNaN, hrow, cellAt, coerceCell,
      oadd_ss, oadd_nl, oadd_nr, List.range_succ, List.filterMap_cons, id_eq, List.sum_cons,
      List.sum_nil]

/-- Claim C1 witness: the NaN-propagating branch applies on `gNaN`. -/
theorem filter_and_sum_nan_propagating_witness :
    Option.none ∈ survivingCells gNaN noFilters ∧ filter_and_sum gNaN noFilters = none :=
  have hmem : Option.none ∈ survivingCells gNaN noFilters := by
    norm_num [survivingCells, survRows, survCols, anyRowFilter, anyColFilter, noFilters,
      dataRowCount, dataColCount, gNaN, hrow, cellAt, coerceCell, List.range_succ]
  ⟨hmem, (filter_and_sum_nan_propagating gNaN noFilters).2 hmem⟩

/-- Claim C2 (code bug): `filter_and_sum` performs no structural
validation whatsoever.  On `gBad` — the `gQ` sheet with only 5
column-header rows instead of the documented 6 — it silently consumes
the first data row as the missing 6th header row and returns 70 (the
sum missing that row's 10 and 20) with no error of any kind, while the
same data in the documented layout sums to 100; the spec requires a
fail-fast descriptive structural error instead of this silent
misalignment. -/
theorem filter_and_sum_no_shape_validation :
    filter_and_sum gBad noFilters = some 70 ∧ filter_and_sum gQ noFilters = some 100 := by
  constructor <;>
    norm_num [filter_and_sum, npSum, survivingCells, survRows, survCols, anyRowFilter,
      anyColFilter, noFilters, dataRowCount, dataColCount, gBad, gQ, hrow, cellAt, coerceCell,
      oadd_ss, oadd_nl, oadd_nr, List.range_succ]

/-- Claim C8: with all filters unset `filter_and_sum` excludes no rows
or columns and returns the sum of the entire numeric data block (stated
for fully numeric blocks, where the sum is unambiguous); and whenever
the filters leave exactly one row `i` and one column `j`, whose cell is
the number `q`, the result is exactly `q`. -/
theorem filter_and_sum_roundtrip (g : Grid) (f : QueryFilters) (i j : ℕ) (q : ℚ) :
    ((∀ a ∈ allCells g, a.isSome) →
        filter_and_sum g noFilters = some (((allCells g).filterMap id).sum)) ∧
      (survRows g f = [i] → survCols g f = [j] →
        coerceCell (cellAt g (i + 6) (j + 5)) = some q → filter_and_sum g f = some q) := by
  constructor
  · intro h
    have hsc : survivingCells g noFilters = allCells g := rfl
    rw [filter_and_sum, hsc]
    exact npSum_all_some _ h
  · intro h1 h2 h3
    rw [filter_and_sum, survivingCells, h1, h2]
    simp [npSum, h3, oadd_ss]

/-- Claim C8 witness: on the 2×2 sheet `gQ`, no filters gives
10+20+30+40 = 100, and the per-level filters `fUnique` isolate the
single cell 40. -/
theorem filter_and_sum_roundtrip_witness :
    (∀ a ∈ allCells gQ, a.isSome) ∧ filter_and_sum gQ noFilters = some 100 ∧
      survRows gQ fUnique = [1] ∧ survCols gQ fUnique = [1] ∧
      filter_and_sum gQ fUnique = some 40 :=
  have h1 : ∀ a ∈ allCells gQ, a.isSome := by
    norm_num [allCells, dataRowCount, dataColCount, gQ, hrow, cellAt, coerceCell,
      List.range_succ]
  have hsum : ((allCells gQ).filterMap id).sum = 100 := by
    norm_num [allCells, dataRowCount, dataColCount, gQ, hrow, cellAt, coerceCell,
      List.range_succ, List.filterMap_cons, id_eq, List.sum_cons, List.sum_nil]
  have h3 : survRows gQ fUnique = [1] := by
    norm_num [survRows, anyRowFilter, fUnique, dataRowCount, gQ, hrow, cellAt, rowKeyAt,
      rowPass, matchF, productToMode, List.range_succ, List.filter_cons, List.filter_nil]
    all_goals decide
  have h4 : survCols gQ fUnique = [1] := by
    norm_num [survCols, anyColFilter, fUnique, dataColCount, gQ, hrow, cellAt, colKeyAt,
      colPass, matchF, List.range_succ, List.filter_cons, List.filter_nil]
    all_goals decide
  have h5 : coerceCell (cellAt gQ (1 + 6) (1 + 5)) = some 40 := by
    norm_num [gQ, hrow, cellAt, coerceCell]
  ⟨h1, by rw [(filter_and_sum_roundtrip gQ fUnique 1 1 40).1 h1, hsum], h3, h4,
    (filter_and_sum_roundtrip gQ fUnique 1 1 40).2 h3 h4 h5⟩
